import Mathlib

/-!
Shallow embedding of the memory-mapped vector storage and scorer layer of a
vector search engine.

Sources embedded:
  * `src/lib/segment/src/vector_storage/memmap_vector_storage.rs`
    (`MemmapVectorStorage`, `MemmapRawScorer` and their trait impls)
  * `src/lib/segment/src/index/hnsw_index/point_scorer.rs` (`FilteredScorer`)

The backing `MmapVectors` type, the metric objects (`mertic_object`), the
top-k selector (`peek_top_scores`) and the error enum of `OperationResult`
are declared in files that are not part of this repository snapshot; they
are modelled from the specification and marked as such in their doc
comments.

Vector elements (`f32` in the source) are modelled as rationals; the claims
under study are structural (which offsets are read, written, skipped,
emitted and in which order), not about floating-point rounding.  Fallible
Rust code returning `OperationResult` is modelled with an `Outcome` type
that distinguishes a typed error from a process abort (`panic!` /
`Option::unwrap` on `None`), since several claims are exactly about this
distinction.  File I/O failure is modelled by an explicit fault-injection
parameter naming the operation (open / write / flush) that fails.
-/

/-- Element type of stored vectors (`VectorElementType = f32` in the source,
modelled as `ℚ`). A vector is a list of elements. -/
abbrev Vec := List ℚ

/-- Modelled from the spec: the error kinds of §7 (the repository snapshot
does not contain `entry_point.rs` where `OperationResult`'s error type
lives). -/
inductive StorageError where
  | dimensionMismatch
  | outOfRange
  | notFound
  | unsupported
  | ioFailure
  | corruption
deriving DecidableEq, Repr

/-- Result of running a storage operation: a value, a typed recoverable
error surfaced to the caller, or a process abort (`panic!` or
`Option::unwrap` on `None` in the source). -/
inductive Outcome (α : Type) where
  | ok : α → Outcome α
  | err : StorageError → Outcome α
  | panic : String → Outcome α
deriving DecidableEq, Repr

/-- `ScoredPointOffset { idx, score }` from `vector_storage.rs`. -/
structure ScoredPointOffset where
  idx : Nat
  score : ℚ
deriving DecidableEq, Repr

/-- Modelled from the spec: `MmapVectors` (file `mmap_vectors.rs` is not in
the repository snapshot).  §4.2: the two backing files mapped into memory,
with `num_vectors` and `deleted_count` recomputed from them at open time.
`data` is the mapped `matrix.dat` contents (flat element array), `flags`
the mapped `deleted.dat` contents. -/
structure MmapVectors where
  dim : Nat
  numVectors : Nat
  deletedCount : Nat
  data : List ℚ
  flags : List Bool
deriving DecidableEq, Repr

/-- Modelled from the spec (§4.2 open/create): map the two files; recompute
`num_vectors = file length / record size` and `deleted_count` = number of
set flags; fail fast with a corruption error when the matrix length is not
a whole number of records or the deleted file length differs from the
vector count. -/
def MmapVectors.openFiles (matrix : List ℚ) (flagsF : List Bool) (dim : Nat) :
    Except StorageError MmapVectors :=
  if matrix.length % dim = 0 ∧ flagsF.length = matrix.length / dim then
    .ok { dim := dim
          numVectors := matrix.length / dim
          deletedCount := (flagsF.filter id).length
          data := matrix
          flags := flagsF }
  else
    .error .corruption

/-- Modelled from the spec (§4.2 read path): bounds-check against
`num_vectors`, then copy the `dim`-length slice at `offset * record_size`. -/
def MmapVectors.get_vector (st : MmapVectors) (key : Nat) : Option Vec :=
  if key < st.numVectors then some ((st.data.drop (key * st.dim)).take st.dim)
  else none

/-- Modelled from the spec: `raw_vector` returns the stored slice without a
copy; observationally the same bounds-checked slice as `get_vector`. -/
def MmapVectors.raw_vector (st : MmapVectors) (key : Nat) : Option Vec :=
  st.get_vector key

/-- Modelled from the spec: `deleted(key)` returns the deletion flag for an
in-range offset and `None` beyond `num_vectors` (callers in the snapshot
use it with `unwrap_or(true)` or `unwrap()`). -/
def MmapVectors.deleted (st : MmapVectors) (key : Nat) : Option Bool :=
  if key < st.numVectors then some (st.flags.getD key false) else none

/-- Modelled from the spec (§4.2 deletion): an in-place write of the flag
byte in the mapped region, no remap; out-of-range offsets are a typed
out-of-range error (§4.1); idempotent. `deleted_count` is kept in sync. -/
def MmapVectors.deleteFlag (st : MmapVectors) (key : Nat) :
    MmapVectors × Except StorageError Unit :=
  if key < st.numVectors then
    let already := st.flags.getD key false
    ({ st with
        flags := st.flags.set key true
        deletedCount := if already then st.deletedCount else st.deletedCount + 1 },
      .ok ())
  else (st, .error .outOfRange)

/-- Modelled from the spec (§4.1 flush): durably sync the maps; the model
has no buffering, so this always succeeds. -/
def MmapVectors.flush (_st : MmapVectors) : Except StorageError Unit := .ok ()

/-- Modelled from the spec (§4.3): a metric object as produced by
`mertic_object` — a preprocessing step applied once per query and a pure
similarity function (`spaces/tools.rs` and `spaces/metric.rs` are not in
the snapshot). -/
structure MetricObj where
  preprocess : Vec → Vec
  similarity : Vec → Vec → ℚ

/-- Dot-product similarity over the modelled element type. -/
def dotSim (a b : Vec) : ℚ :=
  ((a.zip b).map (fun p => p.1 * p.2)).sum

/-- Modelled from the spec: the `Distance` enum (`types.rs` is not in the
snapshot). Cosine is omitted: its preprocessing normalises by a square
root, which has no exact model over `ℚ`, and no claim depends on it. -/
inductive Distance where
  | dot
  | euclid
deriving DecidableEq, Repr

/-- Modelled from the spec (§4.3): `mertic_object` maps a distance name to
its metric object; metrics whose natural comparison is lower-is-better
(Euclid) negate so that higher score is always better. The Euclidean
variant negates the squared distance (order-equivalent, exact over `ℚ`). -/
def mertic_object : Distance → MetricObj
  | .dot => ⟨fun v => v, dotSim⟩
  | .euclid =>
      ⟨fun v => v,
       fun a b => -(((a.zip b).map (fun p => (p.1 - p.2) * (p.1 - p.2))).sum)⟩

/-- `MemmapRawScorer` from `memmap_vector_storage.rs`: a query preprocessed
once, a metric object, and a borrow of the mapped store. -/
structure MemmapRawScorer where
  query : Vec
  metric : MetricObj
  mmap_store : MmapVectors

/-- `MemmapRawScorer::score_points` from `memmap_vector_storage.rs`:
filter out candidates whose `deleted` lookup is `true` or unavailable
(`.unwrap_or(true)`), then map each survivor to
`(idx, similarity(query, raw_vector(idx).unwrap()))`.  The iterator is
modelled as the list of emitted items in emission order; `unwrap()` on
`raw_vector` cannot fire behind the filter, `getD []` marks that spot. -/
def MemmapRawScorer.score_points (sc : MemmapRawScorer) (points : List Nat) :
    List ScoredPointOffset :=
  (points.filter (fun p => !((sc.mmap_store.deleted p).getD true))).map
    (fun p =>
      { idx := p
        score := sc.metric.similarity sc.query ((sc.mmap_store.raw_vector p).getD []) })

/-- Modelled from the spec: `RawScorer::check_point` for the memmap scorer
(the trait impl is not in the snapshot beyond `score_points`); §4.4 calls
it "the raw scorer's own liveness check": the point resolves and its
deletion flag is unset. -/
def MemmapRawScorer.check_point (sc : MemmapRawScorer) (p : Nat) : Bool :=
  !((sc.mmap_store.deleted p).getD true)

/-- `FilteredScorer` from `point_scorer.rs`, generic over the opaque
`Filter` type `Φ`; the `ConditionChecker` capability is the function
`condition_checker`. -/
structure FilteredScorer (Φ : Type) where
  raw_scorer : MemmapRawScorer
  condition_checker : Nat → Φ → Bool
  filter : Option Φ

/-- `FilteredScorer::check_point` from `point_scorer.rs`: with no filter,
delegate to the raw scorer; with a filter, require the condition check and
the raw check. -/
def FilteredScorer.check_point {Φ : Type} (fs : FilteredScorer Φ) (point_id : Nat) :
    Bool :=
  match fs.filter with
  | none => fs.raw_scorer.check_point point_id
  | some f => fs.condition_checker point_id f && fs.raw_scorer.check_point point_id

/-- `FilteredScorer::score_iterable_points` from `point_scorer.rs`: with no
filter, feed the candidates straight to the raw scorer; with a filter,
filter the candidate stream by the condition check before the raw scorer
(whose liveness filter still applies).  The `action` sink receives the
returned list in order. -/
def FilteredScorer.score_iterable_points {Φ : Type} (fs : FilteredScorer Φ)
    (points : List Nat) : List ScoredPointOffset :=
  match fs.filter with
  | none => fs.raw_scorer.score_points points
  | some f =>
      fs.raw_scorer.score_points
        (points.filter (fun id => fs.condition_checker id f))

/-- Stable descending insertion: a new element goes in front of the first
element whose score is not larger, hence before later-arriving equals. -/
def insertDesc (x : ScoredPointOffset) : List ScoredPointOffset → List ScoredPointOffset
  | [] => [x]
  | y :: ys => if y.score ≤ x.score then x :: y :: ys else y :: insertDesc x ys

/-- Stable descending sort by score (insertion sort). -/
def sortDesc : List ScoredPointOffset → List ScoredPointOffset
  | [] => []
  | x :: xs => insertDesc x (sortDesc xs)

/-- Modelled from the spec (§4.3 top-k selection; `peek_top_scores` lives
in `spaces/tools.rs`, not in the snapshot): the `top` highest-scoring
entries in descending score order, all of them when fewer exist, selected
stably. -/
def peek_top_scores (scores : List ScoredPointOffset) (top : Nat) :
    List ScoredPointOffset :=
  (sortDesc scores).take top

/-- `MemmapVectorStorage` from `memmap_vector_storage.rs`: the two backing
file contents (the paths `vectors_path` / `deleted_path` are modelled by
the files they name) and the optional mapped store, which `update_from`
temporarily drops. -/
structure MemmapVectorStorage where
  matrixFile : List ℚ
  deletedFile : List Bool
  mmap_store : Option MmapVectors
deriving DecidableEq, Repr

/-- `MemmapVectorStorage::open`: create or map the files of the directory.
The model takes the file contents directly. -/
def MemmapVectorStorage.openDir (matrix : List ℚ) (flagsF : List Bool) (dim : Nat) :
    Except StorageError MemmapVectorStorage :=
  (MmapVectors.openFiles matrix flagsF dim).map
    (fun st => { matrixFile := matrix, deletedFile := flagsF, mmap_store := some st })

/-- `vector_dim` from `memmap_vector_storage.rs`:
`self.mmap_store.as_ref().unwrap().dim` — aborts when the map is absent. -/
def MemmapVectorStorage.vector_dim (s : MemmapVectorStorage) : Outcome Nat :=
  match s.mmap_store with
  | none => .panic "called `Option::unwrap()` on a `None` value"
  | some st => .ok st.dim

/-- `vector_count` from `memmap_vector_storage.rs`:
`num_vectors - deleted_count` through `map(..).unwrap()` — aborts when the
map is absent. -/
def MemmapVectorStorage.vector_count (s : MemmapVectorStorage) : Outcome Nat :=
  match s.mmap_store with
  | none => .panic "called `Option::unwrap()` on a `None` value"
  | some st => .ok (st.numVectors - st.deletedCount)

/-- `deleted_count` from `memmap_vector_storage.rs` — aborts when the map
is absent. -/
def MemmapVectorStorage.deleted_count (s : MemmapVectorStorage) : Outcome Nat :=
  match s.mmap_store with
  | none => .panic "called `Option::unwrap()` on a `None` value"
  | some st => .ok st.deletedCount

/-- `get_vector` from `memmap_vector_storage.rs`:
`self.mmap_store.as_ref().and_then(|x| x.get_vector(key))` — total, no
deletion-flag check. -/
def MemmapVectorStorage.get_vector (s : MemmapVectorStorage) (key : Nat) : Option Vec :=
  s.mmap_store.bind (fun st => st.get_vector key)

/-- `put_vector` from `memmap_vector_storage.rs`: unconditionally
`panic!("Can't put vector in mmap storage")`. -/
def MemmapVectorStorage.put_vector (_s : MemmapVectorStorage) (_vector : Vec) :
    Outcome Nat :=
  .panic "Can't put vector in mmap storage"

/-- `update_vector` from `memmap_vector_storage.rs`: unconditionally
`panic!("Can't directly update vector in mmap storage")`. -/
def MemmapVectorStorage.update_vector (_s : MemmapVectorStorage) (_key : Nat)
    (_vector : Vec) : Outcome Nat :=
  .panic "Can't directly update vector in mmap storage"

/-- `delete` from `memmap_vector_storage.rs`:
`self.mmap_store.as_mut().unwrap().delete(key)` — aborts when the map is
absent; the flag write goes through the shared map, so the file mirrors
it. -/
def MemmapVectorStorage.delete (s : MemmapVectorStorage) (key : Nat) :
    MemmapVectorStorage × Outcome Unit :=
  match s.mmap_store with
  | none => (s, .panic "called `Option::unwrap()` on a `None` value")
  | some st =>
      match st.deleteFlag key with
      | (st2, .ok ()) =>
          ({ s with mmap_store := some st2, deletedFile := st2.flags }, .ok ())
      | (st2, .error e) => ({ s with mmap_store := some st2 }, .err e)

/-- `iter_ids` from `memmap_vector_storage.rs`: the offsets below
`num_vectors` whose deletion flag (an always-in-range `unwrap`) is unset,
ascending; aborts when the map is absent. -/
def MemmapVectorStorage.iter_ids (s : MemmapVectorStorage) : Outcome (List Nat) :=
  match s.mmap_store with
  | none => .panic "called `Option::unwrap()` on a `None` value"
  | some st =>
      .ok ((List.range st.numVectors).filter
        (fun id => !((st.deleted id).getD false)))

/-- `flush` from `memmap_vector_storage.rs`: `Ok(())` when the map is
absent, otherwise the store's flush. -/
def MemmapVectorStorage.flush (s : MemmapVectorStorage) : Outcome Unit :=
  match s.mmap_store with
  | none => .ok ()
  | some st =>
      match st.flush with
      | .ok u => .ok u
      | .error e => .err e

/-- `raw_scorer` from `memmap_vector_storage.rs`: build the metric object,
preprocess the query once, and borrow the map (`unwrap` — aborts when the
map is absent). -/
def MemmapVectorStorage.raw_scorer (s : MemmapVectorStorage) (vector : Vec)
    (distance : Distance) : Outcome MemmapRawScorer :=
  match s.mmap_store with
  | none => .panic "called `Option::unwrap()` on a `None` value"
  | some st =>
      let metric := mertic_object distance
      .ok { query := metric.preprocess vector, metric := metric, mmap_store := st }

/-- `score_points` (the `VectorStorage` method) from
`memmap_vector_storage.rs`: filter out deleted / unresolvable candidates
(`unwrap_or(true)`), score the rest against the preprocessed query, and
reduce with `peek_top_scores`.  The `unwrap` of the map sits inside the
per-candidate closures, so an absent map only aborts once a candidate is
examined. -/
def MemmapVectorStorage.score_points (s : MemmapVectorStorage) (vector : Vec)
    (points : List Nat) (top : Nat) (distance : Distance) :
    Outcome (List ScoredPointOffset) :=
  match s.mmap_store with
  | none =>
      if points.isEmpty then .ok (peek_top_scores [] top)
      else .panic "called `Option::unwrap()` on a `None` value"
  | some st =>
      let metric := mertic_object distance
      let preprocessed_vector := metric.preprocess vector
      let scores :=
        (points.filter (fun p => !((st.deleted p).getD true))).map
          (fun p =>
            { idx := p
              score := metric.similarity preprocessed_vector
                  ((st.raw_vector p).getD []) : ScoredPointOffset })
      .ok (peek_top_scores scores top)

/-- `score_all` from `memmap_vector_storage.rs`: score every live offset
(`iter_ids`) and reduce with `peek_top_scores`; aborts when the map is
absent (`iter_ids` unwraps first). -/
def MemmapVectorStorage.score_all (s : MemmapVectorStorage) (vector : Vec)
    (top : Nat) (distance : Distance) : Outcome (List ScoredPointOffset) :=
  match s.mmap_store with
  | none => .panic "called `Option::unwrap()` on a `None` value"
  | some st =>
      let metric := mertic_object distance
      let preprocessed_vector := metric.preprocess vector
      let ids := (List.range st.numVectors).filter
        (fun id => !((st.deleted id).getD false))
      let scores := ids.map
        (fun p =>
          { idx := p
            score := metric.similarity preprocessed_vector
                ((st.raw_vector p).getD []) : ScoredPointOffset })
      .ok (peek_top_scores scores top)

/-- `score_internal` from `memmap_vector_storage.rs`:
`let vector = self.get_vector(point).unwrap()` — aborts when the offset
does not resolve — then `score_points` with the looked-up vector (whose
deletion flag was never consulted). -/
def MemmapVectorStorage.score_internal (s : MemmapVectorStorage) (point : Nat)
    (points : List Nat) (top : Nat) (distance : Distance) :
    Outcome (List ScoredPointOffset) :=
  match s.get_vector point with
  | none => .panic "called `Option::unwrap()` on a `None` value"
  | some vector => s.score_points vector points top distance

/-- The `&dyn VectorStorage` source of `update_from`: all the code uses of
it are `iter_ids()` (its live offsets, in its iteration order) and
`get_vector(id)`. -/
structure OtherStorage where
  iterIds : List Nat
  getVector : Nat → Option Vec

/-- The live vectors of an `OtherStorage`, in its iteration order. -/
def OtherStorage.liveVectors (o : OtherStorage) : List Vec :=
  o.iterIds.filterMap o.getVector

/-- Fault injection for the file I/O of `update_from`: which fallible
operation (if any) returns an I/O error.  `vecWrite j` fails the write of
the `j`-th live vector (0-based), after the earlier ones were appended. -/
inductive UfFault where
  | noFault
  | vecOpen
  | vecWrite (j : Nat)
  | vecFlush
  | delOpen
  | delWrite
  | delFlush
deriving DecidableEq, Repr

/-- Result of the append loop of `update_from`: all writes succeeded, a
write returned an I/O error (`?` propagates), or `get_vector(id).unwrap()`
aborted. -/
inductive LoopResult where
  | allOk
  | ioErr
  | panicked
deriving DecidableEq, Repr

/-- The `for id in other.iter_ids()` loop of `update_from`: per iteration,
look the vector up (`unwrap` — abort on `None`), then append its raw
element bytes unless the injected write fault fires.  Returns the bytes
appended before stopping, the number of complete vector writes
(`end_index - start_index`), and how the loop ended. -/
def ufWriteLoop (other : OtherStorage) :
    List Nat → Option Nat → List ℚ × Nat × LoopResult
  | [], _ => ([], 0, .allOk)
  | id :: rest, failAt =>
      match other.getVector id with
      | none => ([], 0, .panicked)
      | some v =>
          if failAt = some 0 then ([], 0, .ioErr)
          else
            match ufWriteLoop other rest (failAt.map Nat.pred) with
            | (bs, n, r) => (v ++ bs, n + 1, r)

/-- `update_from` from `memmap_vector_storage.rs`, line by line:
read `self.vector_dim()` (unwrap — aborts on an absent map) and the start
index, drop the map (`self.mmap_store = None`), append every live vector
of `other` to the vectors file, flush, append the matching run of zero
deletion flags to the deleted file, flush, re-open fresh maps over the
grown files, and return `start_index..end_index`.  Every `?` leaves the
map dropped and the files as far as they got. -/
def MemmapVectorStorage.update_from (s : MemmapVectorStorage) (other : OtherStorage)
    (fault : UfFault) : MemmapVectorStorage × Outcome (Nat × Nat) :=
  match s.mmap_store with
  | none => (s, .panic "called `Option::unwrap()` on a `None` value")
  | some st =>
      let dim := st.dim
      let start_index := st.numVectors
      let s1 : MemmapVectorStorage := { s with mmap_store := none }
      if fault = .vecOpen then (s1, .err .ioFailure)
      else
        let failAt : Option Nat :=
          match fault with
          | .vecWrite j => some j
          | _ => none
        match ufWriteLoop other other.iterIds failAt with
        | (bs, n, lr) =>
          let s2 : MemmapVectorStorage := { s1 with matrixFile := s1.matrixFile ++ bs }
          match lr with
          | .panicked => (s2, .panic "called `Option::unwrap()` on a `None` value")
          | .ioErr => (s2, .err .ioFailure)
          | .allOk =>
            if fault = .vecFlush then (s2, .err .ioFailure)
            else
              let end_index := start_index + n
              if fault = .delOpen then (s2, .err .ioFailure)
              else if fault = .delWrite then (s2, .err .ioFailure)
              else
                let s3 : MemmapVectorStorage :=
                  { s2 with deletedFile :=
                      s2.deletedFile ++ List.replicate (end_index - start_index) false }
                if fault = .delFlush then (s3, .err .ioFailure)
                else
                  match MmapVectors.openFiles s3.matrixFile s3.deletedFile dim with
                  | .error e => (s3, .err e)
                  | .ok st2 =>
                      ({ s3 with mmap_store := some st2 }, .ok (start_index, end_index))

/-- A mutation in a fault-free run of the storage: a soft delete or a bulk
ingest from another storage. -/
inductive StorageOp where
  | del (k : Nat)
  | ingest (other : OtherStorage)

/-- Apply one operation; also report how many slots the operation appended
(the length of a successful ingest's returned range, `0` otherwise). -/
def MemmapVectorStorage.applyOp (s : MemmapVectorStorage) :
    StorageOp → MemmapVectorStorage × Nat
  | .del k => ((s.delete k).1, 0)
  | .ingest o =>
      match s.update_from o .noFault with
      | (s2, .ok (a, b)) => (s2, b - a)
      | (s2, _) => (s2, 0)

/-- Run a sequence of operations; return the final state and the total
number of slots appended across the run. -/
def MemmapVectorStorage.runOps (s : MemmapVectorStorage) :
    List StorageOp → MemmapVectorStorage × Nat
  | [] => (s, 0)
  | op :: rest =>
      match s.applyOp op with
      | (s2, n) =>
          match s2.runOps rest with
          | (s3, m) => (s3, n + m)

/-- The freshly created empty storage of dimension `d` (both files zero
length, counts zero). -/
def MemmapVectorStorage.emptyStorage (d : Nat) : MemmapVectorStorage :=
  { matrixFile := []
    deletedFile := []
    mmap_store := some { dim := d, numVectors := 0, deletedCount := 0, data := [], flags := [] } }

/-- The cached fields of a mapped store agree with its data: flag count
matches the slot count, the data is a whole number of records, and
`deletedCount` counts the set flags. -/
def MmapVectors.wf (st : MmapVectors) : Prop :=
  st.data.length = st.numVectors * st.dim ∧
  st.flags.length = st.numVectors ∧
  st.deletedCount = (st.flags.filter id).length

/-- The mapped store (when present) is the map of the two backing files. -/
def MemmapVectorStorage.wf (s : MemmapVectorStorage) : Prop :=
  ∀ st, s.mmap_store = some st →
    st.wf ∧ s.matrixFile = st.data ∧ s.deletedFile = st.flags

/-- A source storage every one of whose advertised live ids resolves to a
vector of length `d` (what a well-formed `&dyn VectorStorage` of matching
dimension guarantees). -/
def OtherStorage.good (o : OtherStorage) (d : Nat) : Prop :=
  ∀ id ∈ o.iterIds, ∃ v, o.getVector id = some v ∧ v.length = d

/-- Pairwise non-increasing score order. -/
def ScoresSortedDesc (l : List ScoredPointOffset) : Prop :=
  List.Chain' (fun a b => b.score ≤ a.score) l

lemma insertDesc_length (x : ScoredPointOffset) (l : List ScoredPointOffset) :
    (insertDesc x l).length = l.length + 1 := by
  induction l with
  | nil => rfl
  | cons y ys ih =>
      by_cases h : y.score ≤ x.score <;> simp [insertDesc, h, ih]

lemma sortDesc_length (l : List ScoredPointOffset) :
    (sortDesc l).length = l.length := by
  induction l with
  | nil => rfl
  | cons x xs ih => simp [sortDesc, insertDesc_length, ih]

lemma mem_insertDesc {z x : ScoredPointOffset} {l : List ScoredPointOffset} :
    z ∈ insertDesc x l ↔ z = x ∨ z ∈ l := by
  induction l with
  | nil => simp [insertDesc]
  | cons y ys ih =>
      by_cases h : y.score ≤ x.score
      · simp [insertDesc, h]
      · simp [insertDesc, h, ih]
        tauto

lemma mem_sortDesc {z : ScoredPointOffset} {l : List ScoredPointOffset} :
    z ∈ sortDesc l ↔ z ∈ l := by
  induction l with
  | nil => simp [sortDesc]
  | cons x xs ih => simp [sortDesc, mem_insertDesc, ih]

lemma head?_insertDesc (x : ScoredPointOffset) (l : List ScoredPointOffset) :
    (insertDesc x l).head? = some x ∨ (insertDesc x l).head? = l.head? := by
  cases l with
  | nil => left; rfl
  | cons y ys =>
      by_cases h : y.score ≤ x.score
      · left; simp [insertDesc, h]
      · right; simp [insertDesc, h]

lemma chain'_insertDesc (x : ScoredPointOffset) (l : List ScoredPointOffset)
    (hl : ScoresSortedDesc l) : ScoresSortedDesc (insertDesc x l) := by
  induction l with
  | nil => simp [insertDesc, ScoresSortedDesc]
  | cons y ys ih =>
      by_cases h : y.score ≤ x.score
      · have : insertDesc x (y :: ys) = x :: y :: ys := by simp [insertDesc, h]
        rw [ScoresSortedDesc, this, List.chain'_cons]
        exact ⟨h, hl⟩
      · have heq : insertDesc x (y :: ys) = y :: insertDesc x ys := by
          simp [insertDesc, h]
        have hys : ScoresSortedDesc ys := (List.chain'_cons'.mp hl).2
        rw [ScoresSortedDesc, heq, List.chain'_cons']
        refine ⟨?_, ih hys⟩
        intro z hz
        rcases head?_insertDesc x ys with hh | hh
        · rw [hh] at hz
          simp only [Option.mem_def, Option.some.injEq] at hz
          subst hz
          exact le_of_lt (lt_of_not_le h)
        · rw [hh] at hz
          exact (List.chain'_cons'.mp hl).1 z hz

lemma sortDesc_sorted (l : List ScoredPointOffset) : ScoresSortedDesc (sortDesc l) := by
  induction l with
  | nil => simp [sortDesc, ScoresSortedDesc]
  | cons x xs ih => exact chain'_insertDesc x (sortDesc xs) ih

lemma mem_peek_top_scores {z : ScoredPointOffset} {l : List ScoredPointOffset}
    {top : Nat} (h : z ∈ peek_top_scores l top) : z ∈ l := by
  have := List.take_subset top (sortDesc l) h
  exact mem_sortDesc.mp this

lemma map_idx_mk (f : Nat → ℚ) (l : List Nat) :
    (l.map (fun p => ({ idx := p, score := f p } : ScoredPointOffset))).map
      ScoredPointOffset.idx = l := by
  induction l with
  | nil => rfl
  | cons a t ih => simp [ih]

lemma score_points_map_idx (sc : MemmapRawScorer) (points : List Nat) :
    (sc.score_points points).map ScoredPointOffset.idx
      = points.filter (fun p => !((sc.mmap_store.deleted p).getD true)) := by
  unfold MemmapRawScorer.score_points
  exact map_idx_mk _ _

lemma live_flag_eq_some_false {st : MmapVectors} {p : Nat}
    (h : !((st.deleted p).getD true) = true) : st.deleted p = some false := by
  by_cases hp : p < st.numVectors
  · simp [MmapVectors.deleted, hp] at h ⊢
    exact h
  · simp [MmapVectors.deleted, hp] at h

lemma live_flag_lt {st : MmapVectors} {p : Nat}
    (h : !((st.deleted p).getD true) = true) : p < st.numVectors := by
  by_cases hp : p < st.numVectors
  · exact hp
  · simp [MmapVectors.deleted, hp] at h

/-- Example storage for evaluation: dimension 1, two stored vectors `[1]`
and `[4]`, offset `0` tombstoned. -/
def exDel : MemmapVectorStorage :=
  { matrixFile := [1, 4]
    deletedFile := [true, false]
    mmap_store := some
      { dim := 1, numVectors := 2, deletedCount := 1
        data := [1, 4], flags := [true, false] } }

/-- The mapped store of `exDel`. -/
def exDelStore : MmapVectors :=
  { dim := 1, numVectors := 2, deletedCount := 1, data := [1, 4], flags := [true, false] }

/-- C1 counterexample: on a concrete memory-mapped storage, `put_vector`
aborts with a panic instead of returning the typed `Unsupported` error the
claim promises, and `update_vector` likewise never returns an
`Unsupported` error. -/
theorem put_vector_panics_cex :
    exDel.put_vector [1] = Outcome.panic "Can't put vector in mmap storage" ∧
    exDel.put_vector [1] ≠ Outcome.err StorageError.unsupported ∧
    exDel.update_vector 0 [1]
      = Outcome.panic "Can't directly update vector in mmap storage" ∧
    exDel.update_vector 0 [1] ≠ Outcome.err StorageError.unsupported := by
  refine ⟨rfl, ?_, rfl, ?_⟩ <;> decide

/-- C1 (amended): for the memory-mapped storage implementation, calling
`put_vector` or `update_vector` with any vector unconditionally aborts
(panics) with a fixed message; no typed error is ever returned to the
caller. -/
theorem put_update_vector_always_panic (s : MemmapVectorStorage) (v : Vec) (k : Nat) :
    s.put_vector v = Outcome.panic "Can't put vector in mmap storage" ∧
    s.update_vector k v = Outcome.panic "Can't directly update vector in mmap storage" :=
  ⟨rfl, rfl⟩

/-- C2 counterexample: on a concrete storage whose offset `0` is
tombstoned, `score_internal 0` does not fail with `NotFound` — it silently
uses the tombstoned vector `[1]` as the query and returns a scored
result. -/
theorem score_internal_deleted_cex :
    exDel.score_internal 0 [1] 10 Distance.dot
      = Outcome.ok [{ idx := 1, score := 4 }] ∧
    exDel.score_internal 0 [1] 10 Distance.dot
      ≠ Outcome.err StorageError.notFound := by
  constructor
  · simp [MemmapVectorStorage.score_internal, MemmapVectorStorage.get_vector,
      MemmapVectorStorage.score_points, exDel, MmapVectors.get_vector,
      MmapVectors.deleted, MmapVectors.raw_vector, mertic_object, dotSim,
      peek_top_scores, sortDesc, insertDesc]
  · simp [MemmapVectorStorage.score_internal, MemmapVectorStorage.get_vector,
      MemmapVectorStorage.score_points, exDel, MmapVectors.get_vector,
      MmapVectors.deleted, MmapVectors.raw_vector, mertic_object, dotSim,
      peek_top_scores, sortDesc, insertDesc]

/-- C2 (amended): `score_internal` aborts (panic on `unwrap` of `None`)
whenever the query offset does not resolve — the offset is at-or-beyond
the slot count, or the map is absent — and for every offset that does
resolve, deleted or not, it proceeds without error, scoring the looked-up
vector through `score_points`; the deletion flag of the query offset is
never consulted. -/
theorem score_internal_panics_or_scores (s : MemmapVectorStorage) (point : Nat)
    (points : List Nat) (top : Nat) (dist : Distance) :
    (∀ st, s.mmap_store = some st →
       (s.get_vector point = none ↔ st.numVectors ≤ point)) ∧
    (s.get_vector point = none →
       s.score_internal point points top dist
         = .panic "called `Option::unwrap()` on a `None` value") ∧
    (∀ v, s.get_vector point = some v →
       s.score_internal point points top dist = s.score_points v points top dist) := by
  refine ⟨?_, ?_, ?_⟩
  · intro st hst
    simp [MemmapVectorStorage.get_vector, hst, MmapVectors.get_vector, Nat.not_lt]
  · intro h
    simp [MemmapVectorStorage.score_internal, h]
  · intro v h
    simp [MemmapVectorStorage.score_internal, h]

/-- C2 witness: applying the amended theorem at the concrete storage
`exDel` and the out-of-range offset `5`. -/
theorem score_internal_panics_witness :
    exDel.get_vector 5 = none ∧
    exDel.score_internal 5 [1] 1 Distance.dot
      = .panic "called `Option::unwrap()` on a `None` value" :=
  ⟨rfl, (score_internal_panics_or_scores exDel 5 [1] 1 Distance.dot).2.1 rfl⟩

/-- C5: for every candidate sequence fed to `MemmapRawScorer::score_points`,
the emitted offsets are exactly the candidates whose deletion lookup
succeeds with an unset flag — deleted or unresolvable (out-of-range)
candidates are skipped silently — kept in the candidate sequence's order
with exactly one output per surviving candidate; and every emitted entry
pairs its offset with the similarity of the scorer's preprocessed query
and the vector actually stored at that offset. -/
theorem raw_scorer_score_points_spec (sc : MemmapRawScorer) (points : List Nat) :
    ((sc.score_points points).map ScoredPointOffset.idx
       = points.filter (fun p => !((sc.mmap_store.deleted p).getD true))) ∧
    (∀ x ∈ sc.score_points points,
       sc.mmap_store.deleted x.idx = some false ∧
       ∃ v, sc.mmap_store.get_vector x.idx = some v ∧
         x.score = sc.metric.similarity sc.query v) := by
  refine ⟨score_points_map_idx sc points, ?_⟩
  intro x hx
  unfold MemmapRawScorer.score_points at hx
  rcases List.mem_map.mp hx with ⟨p, hp, rfl⟩
  have hlive : !((sc.mmap_store.deleted p).getD true) = true := by
    simpa using (List.mem_filter.mp hp).2
  have hlt : p < sc.mmap_store.numVectors := live_flag_lt hlive
  refine ⟨live_flag_eq_some_false hlive, ?_⟩
  refine ⟨(sc.mmap_store.data.drop (p * sc.mmap_store.dim)).take sc.mmap_store.dim,
    ?_, ?_⟩
  · simp [MmapVectors.get_vector, hlt]
  · simp [MmapVectors.raw_vector, MmapVectors.get_vector, hlt]

/-- C5 witness: the theorem applied at a concrete scorer over `exDelStore`
(query `[1]`, dot metric) and the candidates `[0, 1, 5]`: offset `0` is
deleted and offset `5` out of range, so exactly offset `1` is emitted, and
the theorem's per-output facts hold of the emitted entry. -/
theorem raw_scorer_score_points_witness :
    ((MemmapRawScorer.mk [1] (mertic_object Distance.dot) exDelStore).score_points
        [0, 1, 5]).map ScoredPointOffset.idx = [1] ∧
    ((MemmapRawScorer.mk [1] (mertic_object Distance.dot) exDelStore).mmap_store.deleted 1
        = some false ∧
      ∃ v, (MemmapRawScorer.mk [1] (mertic_object Distance.dot) exDelStore).mmap_store.get_vector 1
          = some v ∧
        (4 : ℚ) = (MemmapRawScorer.mk [1] (mertic_object Distance.dot) exDelStore).metric.similarity
          (MemmapRawScorer.mk [1] (mertic_object Distance.dot) exDelStore).query v) :=
  ⟨by decide,
   (raw_scorer_score_points_spec
      (MemmapRawScorer.mk [1] (mertic_object Distance.dot) exDelStore) [0, 1, 5]).2
     { idx := 1, score := 4 }
     (by simp [MemmapRawScorer.score_points, exDelStore, MmapVectors.deleted,
           MmapVectors.raw_vector, MmapVectors.get_vector, mertic_object, dotSim])⟩

/-- C6: `FilteredScorer::check_point` is true exactly when the predicate
is absent or passes, and the raw scorer's liveness check passes; and for
every candidate sequence, filtered scoring with a predicate emits a
sub-sequence (hence subset) of the offsets emitted by unfiltered raw
scoring on the same candidates, every emitted offset passing the
predicate check. -/
theorem filtered_scorer_spec {Φ : Type} (raw : MemmapRawScorer)
    (checker : Nat → Φ → Bool) (filt : Option Φ) (f : Φ) (points : List Nat) :
    (∀ p, (FilteredScorer.mk raw checker filt).check_point p
        = ((match filt with | none => true | some g => checker p g)
            && raw.check_point p)) ∧
    List.Sublist
      (((FilteredScorer.mk raw checker (some f)).score_iterable_points points).map
        ScoredPointOffset.idx)
      ((raw.score_points points).map ScoredPointOffset.idx) ∧
    (∀ x ∈ (FilteredScorer.mk raw checker (some f)).score_iterable_points points,
        checker x.idx f = true) := by
  refine ⟨?_, ?_, ?_⟩
  · intro p
    cases filt with
    | none => simp [FilteredScorer.check_point]
    | some g => rfl
  · show List.Sublist
      ((raw.score_points (points.filter (fun id => checker id f))).map
        ScoredPointOffset.idx)
      ((raw.score_points points).map ScoredPointOffset.idx)
    rw [score_points_map_idx, score_points_map_idx]
    exact List.Sublist.filter _ (List.filter_sublist points)
  · intro x hx
    have hx2 : x ∈ raw.score_points (points.filter (fun id => checker id f)) := hx
    unfold MemmapRawScorer.score_points at hx2
    rcases List.mem_map.mp hx2 with ⟨p, hp, rfl⟩
    have hpmem : p ∈ points.filter (fun id => checker id f) :=
      (List.mem_filter.mp hp).1
    simpa using (List.mem_filter.mp hpmem).2

/-- C6 witness: the theorem applied at a concrete filtered scorer (query
`[1]`, dot metric over `exDelStore`, predicate "offset equals 1") on the
candidates `[0, 1]`: the sole emitted entry has offset `1`, which passes
the predicate check. -/
theorem filtered_scorer_witness :
    ({ idx := 1, score := 4 } : ScoredPointOffset) ∈
      (FilteredScorer.mk (MemmapRawScorer.mk [1] (mertic_object Distance.dot) exDelStore)
        (fun id g => decide (id = g)) (some (1 : Nat))).score_iterable_points [0, 1] ∧
    (fun (id : Nat) (g : Nat) => decide (id = g)) 1 1 = true :=
  ⟨by simp [FilteredScorer.score_iterable_points, MemmapRawScorer.score_points,
      exDelStore, MmapVectors.deleted, MmapVectors.raw_vector,
      MmapVectors.get_vector, mertic_object, dotSim],
   (filtered_scorer_spec (MemmapRawScorer.mk [1] (mertic_object Distance.dot) exDelStore)
      (fun id g => decide (id = g)) (some 1) (1 : Nat) [0, 1]).2.2
     { idx := 1, score := 4 }
     (by simp [FilteredScorer.score_iterable_points, MemmapRawScorer.score_points,
        exDelStore, MmapVectors.deleted, MmapVectors.raw_vector,
        MmapVectors.get_vector, mertic_object, dotSim])⟩

/-- C7: top-k selection (`peek_top_scores`, as used by `score_points`,
`score_all` and `score_internal`) returns entries in non-increasing score
order, its length is `min top_k candidates.length`, and it is a pure
function — repeated calls on identical input produce identical output. -/
theorem peek_top_scores_spec (scores : List ScoredPointOffset) (top : Nat) :
    (peek_top_scores scores top).length = min top scores.length ∧
    ScoresSortedDesc (peek_top_scores scores top) ∧
    peek_top_scores scores top = peek_top_scores scores top := by
  refine ⟨?_, ?_, rfl⟩
  · rw [peek_top_scores, List.length_take, sortDesc_length]
  · exact (sortDesc_sorted scores).take _

lemma filterMap_length_of_isSome {α β : Type} (f : α → Option β) :
    ∀ l : List α, (∀ a ∈ l, (f a).isSome) → (l.filterMap f).length = l.length := by
  intro l
  induction l with
  | nil => intro _; rfl
  | cons a t ih =>
      intro h
      obtain ⟨v, hv⟩ := Option.isSome_iff_exists.mp (h a (List.mem_cons_self a t))
      have ht := ih (fun b hb => h b (List.mem_cons_of_mem a hb))
      simp [List.filterMap_cons, hv, ht]

lemma flatten_length_const (d : Nat) :
    ∀ vs : List Vec, (∀ v ∈ vs, v.length = d) → vs.flatten.length = vs.length * d := by
  intro vs
  induction vs with
  | nil => intro _; simp
  | cons v tl ih =>
      intro h
      have hv := h v (List.mem_cons_self v tl)
      have ht := ih (fun w hw => h w (List.mem_cons_of_mem v hw))
      simp [List.flatten_cons, hv, ht, Nat.succ_mul, Nat.add_comm]

lemma liveVectors_length_eq {o : OtherStorage} {d : Nat} (h : o.good d) :
    o.liveVectors.length = o.iterIds.length := by
  refine filterMap_length_of_isSome o.getVector o.iterIds (fun id hid => ?_)
  obtain ⟨v, hv, _⟩ := h id hid
  simp [hv]

lemma liveVectors_lengths {o : OtherStorage} {d : Nat} (h : o.good d) :
    ∀ v ∈ o.liveVectors, v.length = d := by
  intro v hv
  rcases List.mem_filterMap.mp hv with ⟨id, hid, hget⟩
  obtain ⟨w, hw, hlen⟩ := h id hid
  rw [hw] at hget
  cases hget
  exact hlen

lemma ufWriteLoop_noFault (o : OtherStorage) :
    ∀ ids : List Nat, (∀ id ∈ ids, (o.getVector id).isSome) →
      ufWriteLoop o ids none
        = ((ids.filterMap o.getVector).flatten,
           (ids.filterMap o.getVector).length, .allOk) := by
  intro ids
  induction ids with
  | nil => intro _; rfl
  | cons id rest ih =>
      intro h
      obtain ⟨v, hv⟩ := Option.isSome_iff_exists.mp (h id (List.mem_cons_self id rest))
      have ht := ih (fun b hb => h b (List.mem_cons_of_mem id hb))
      simp [ufWriteLoop, hv, ht, List.filterMap_cons, List.flatten_cons]

lemma flatten_slice (d : Nat) :
    ∀ (vs : List Vec), (∀ v ∈ vs, v.length = d) →
      ∀ i, i < vs.length →
        some ((vs.flatten.drop (i * d)).take d) = vs.get? i := by
  intro vs
  induction vs with
  | nil => intro _ i hi; cases hi
  | cons v tl ih =>
      intro h i hi
      have hv := h v (List.mem_cons_self v tl)
      cases i with
      | zero =>
          simp only [Nat.zero_mul, List.drop_zero, List.flatten_cons, List.get?]
          rw [← hv, List.take_left]
      | succ j =>
          have htl := ih (fun w hw => h w (List.mem_cons_of_mem v hw))
          have hj : j < tl.length := by simpa using hi
          have hstep : ((v :: tl).flatten).drop ((j + 1) * d) = tl.flatten.drop (j * d) := by
            have hmul : (j + 1) * d = v.length + j * d := by
              rw [hv]; ring
            rw [List.flatten_cons, hmul, List.drop_append]
          rw [hstep]
          simpa using htl j hj

lemma update_from_noFault_good (s : MemmapVectorStorage) (st : MmapVectors)
    (o : OtherStorage)
    (hmap : s.mmap_store = some st) (hd : 0 < st.dim)
    (hdata : s.matrixFile = st.data) (hflags : s.deletedFile = st.flags)
    (hdlen : st.data.length = st.numVectors * st.dim)
    (hflen : st.flags.length = st.numVectors)
    (hgood : o.good st.dim) :
    s.update_from o .noFault =
      ({ matrixFile := st.data ++ o.liveVectors.flatten
         deletedFile := st.flags ++ List.replicate o.liveVectors.length false
         mmap_store := some
           { dim := st.dim
             numVectors := st.numVectors + o.liveVectors.length
             deletedCount :=
               ((st.flags ++ List.replicate o.liveVectors.length false).filter id).length
             data := st.data ++ o.liveVectors.flatten
             flags := st.flags ++ List.replicate o.liveVectors.length false } },
       .ok (st.numVectors, st.numVectors + o.liveVectors.length)) := by
  have hsome : ∀ id ∈ o.iterIds, (o.getVector id).isSome := by
    intro id hid
    obtain ⟨v, hv, _⟩ := hgood id hid
    simp [hv]
  have hloop := ufWriteLoop_noFault o o.iterIds hsome
  have hflat : o.liveVectors.flatten.length = o.liveVectors.length * st.dim :=
    flatten_length_const st.dim o.liveVectors (liveVectors_lengths hgood)
  have hmlen : (st.data ++ o.liveVectors.flatten).length
      = (st.numVectors + o.liveVectors.length) * st.dim := by
    simp [hdlen, hflat]
    ring
  have hsum : (List.map List.length (List.filterMap o.getVector o.iterIds)).sum
      = (List.filterMap o.getVector o.iterIds).length * st.dim := by
    have h2 := hflat
    rw [OtherStorage.liveVectors] at h2
    rwa [List.length_flatten] at h2
  have hc1 : (st.data.length
      + (List.map List.length (List.filterMap o.getVector o.iterIds)).sum) % st.dim = 0 := by
    rw [hsum, hdlen, ← Nat.add_mul]
    exact Nat.mul_mod_left _ _
  have hc2 : (st.data.length
      + (List.map List.length (List.filterMap o.getVector o.iterIds)).sum) / st.dim
      = st.numVectors + (List.filterMap o.getVector o.iterIds).length := by
    rw [hsum, hdlen, ← Nat.add_mul]
    exact Nat.mul_div_cancel _ hd
  unfold MemmapVectorStorage.update_from
  rw [hmap]
  simp only [OtherStorage.liveVectors] at *
  simp [hloop, hdata, hflags, MmapVectors.openFiles, hc1, hc2, hflen]

lemma openFiles_ok_props {matrix : List ℚ} {flagsF : List Bool} {dim : Nat}
    {st : MmapVectors}
    (h : MmapVectors.openFiles matrix flagsF dim = .ok st) :
    st.data = matrix ∧ st.flags = flagsF ∧ st.dim = dim ∧
    st.flags.length = st.numVectors ∧
    st.data.length = st.numVectors * st.dim ∧
    st.deletedCount = (st.flags.filter id).length := by
  unfold MmapVectors.openFiles at h
  split at h
  case isTrue hc =>
    cases h
    refine ⟨rfl, rfl, rfl, hc.2, ?_, rfl⟩
    exact (Nat.div_mul_cancel (Nat.dvd_of_mod_eq_zero hc.1)).symm
  case isFalse hc => cases h

/-- C3: for storages of equal dimension, a fault-free successful
`update_from` returns the contiguous range starting at the old slot count
whose length is the source's live count at call time, and afterwards every
offset in that range resolves via `get_vector` to the corresponding live
vector of the source, in the source's iteration order. -/
theorem update_from_appends_live_vectors (s : MemmapVectorStorage)
    (st : MmapVectors) (o : OtherStorage)
    (hmap : s.mmap_store = some st) (hd : 0 < st.dim)
    (hdata : s.matrixFile = st.data) (hflags : s.deletedFile = st.flags)
    (hdlen : st.data.length = st.numVectors * st.dim)
    (hflen : st.flags.length = st.numVectors)
    (hgood : o.good st.dim) :
    ∃ s2, s.update_from o .noFault
        = (s2, .ok (st.numVectors, st.numVectors + o.liveVectors.length)) ∧
      o.liveVectors.length = o.iterIds.length ∧
      ∀ i, i < o.liveVectors.length →
        s2.get_vector (st.numVectors + i) = o.liveVectors.get? i := by
  refine ⟨_, update_from_noFault_good s st o hmap hd hdata hflags hdlen hflen hgood,
    liveVectors_length_eq hgood, ?_⟩
  intro i hi
  show MmapVectors.get_vector _ (st.numVectors + i) = o.liveVectors.get? i
  rw [MmapVectors.get_vector]
  have hlt : st.numVectors + i < st.numVectors + o.liveVectors.length :=
    Nat.add_lt_add_left hi _
  rw [if_pos hlt]
  have hmul : (st.numVectors + i) * st.dim = st.data.length + i * st.dim := by
    rw [hdlen]
    ring
  show some ((((st.data ++ o.liveVectors.flatten).drop
      ((st.numVectors + i) * st.dim)).take st.dim)) = _
  rw [hmul, List.drop_append]
  exact flatten_slice st.dim o.liveVectors (liveVectors_lengths hgood) i hi

/-- Example source storage for bulk ingestion: dimension 1, one stored
vector `[5]`, nothing deleted. -/
def exSrcStore : MmapVectors :=
  { dim := 1, numVectors := 1, deletedCount := 0, data := [5], flags := [false] }

/-- The storage wrapping `exSrcStore`. -/
def exSrc : MemmapVectorStorage :=
  { matrixFile := [5], deletedFile := [false], mmap_store := some exSrcStore }

/-- A source of two live one-dimensional vectors `[7]` and `[8]`. -/
def exOther : OtherStorage :=
  { iterIds := [0, 1], getVector := fun i => if i = 0 then some [7] else some [8] }

lemma exOther_good : exOther.good 1 := by
  intro id hid
  rcases List.mem_cons.mp hid with rfl | hid
  · exact ⟨[7], rfl, rfl⟩
  · rcases List.mem_cons.mp hid with rfl | hid
    · exact ⟨[8], rfl, rfl⟩
    · cases hid

/-- C3 witness: the theorem applied to the concrete storage `exSrc` (one
stored vector) ingesting the two live vectors of `exOther`. -/
theorem update_from_appends_witness :
    (exSrc.mmap_store = some exSrcStore ∧ 0 < exSrcStore.dim ∧
      exSrc.matrixFile = exSrcStore.data ∧ exSrc.deletedFile = exSrcStore.flags ∧
      exSrcStore.data.length = exSrcStore.numVectors * exSrcStore.dim ∧
      exSrcStore.flags.length = exSrcStore.numVectors) ∧
    (∃ s2, exSrc.update_from exOther .noFault
        = (s2, .ok (exSrcStore.numVectors,
            exSrcStore.numVectors + exOther.liveVectors.length)) ∧
      exOther.liveVectors.length = exOther.iterIds.length ∧
      ∀ i, i < exOther.liveVectors.length →
        s2.get_vector (exSrcStore.numVectors + i) = exOther.liveVectors.get? i) :=
  ⟨⟨rfl, by decide, rfl, rfl, by decide, by decide⟩,
   update_from_appends_live_vectors exSrc exSrcStore exOther rfl (by decide) rfl rfl
     (by decide) (by decide) exOther_good⟩

/-- C4 counterexample: ingesting into the concrete storage `exSrc` with
the deleted-file open failing after the vectors file was appended returns
an error and leaves the backing files inconsistent — the vectors file
holds 2 one-element records while the deleted file holds 1 flag — so the
claimed "fully consistent whether it returns success or an error" is
false. -/
theorem update_from_error_inconsistent_cex :
    (exSrc.update_from exOther .delOpen).2 = Outcome.err StorageError.ioFailure ∧
    (exSrc.update_from exOther .delOpen).1.matrixFile.length = 3 ∧
    (exSrc.update_from exOther .delOpen).1.deletedFile.length = 1 ∧
    (exSrc.update_from exOther .delOpen).1.matrixFile.length
      ≠ (exSrc.update_from exOther .delOpen).1.deletedFile.length * 1 := by
  refine ⟨?_, ?_, ?_, ?_⟩ <;> decide

/-- C4 (amended): a successful `update_from` (no I/O fault, or at least a
run that returns `Ok`) leaves self fully consistent: the map is present,
it maps exactly the two backing files, the deleted file holds one flag per
record (`deleted.len() == num_vectors`) and the vectors file holds exactly
`num_vectors` records.  (On an error return the files may be left of
unequal logical length, as the counterexample shows.) -/
theorem update_from_success_consistent (s : MemmapVectorStorage) (o : OtherStorage)
    (fault : UfFault) (s2 : MemmapVectorStorage) (a b : Nat)
    (h : s.update_from o fault = (s2, .ok (a, b))) :
    ∃ st2, s2.mmap_store = some st2 ∧
      s2.matrixFile = st2.data ∧ s2.deletedFile = st2.flags ∧
      st2.flags.length = st2.numVectors ∧
      st2.data.length = st2.numVectors * st2.dim := by
  unfold MemmapVectorStorage.update_from at h
  repeat' split at h
  all_goals try contradiction
  all_goals try simp at h
  all_goals repeat' split at h
  all_goals try simp at h
  all_goals
    obtain ⟨h1, -, -⟩ := h
  all_goals subst h1
  all_goals rename_i st2 hopen
  all_goals
    obtain ⟨hdata, hflags, -, hfl, hdl, -⟩ := openFiles_ok_props hopen
  all_goals exact ⟨st2, rfl, hdata.symm, hflags.symm, hfl, hdl⟩

/-- C4 witness: the amended theorem applied to a concrete fault-free
successful ingest of `exOther` into `exSrc`. -/
theorem update_from_success_consistent_witness :
    exSrc.update_from exOther .noFault
      = ((exSrc.update_from exOther .noFault).1, .ok (1, 3)) ∧
    (∃ st2, (exSrc.update_from exOther .noFault).1.mmap_store = some st2 ∧
      (exSrc.update_from exOther .noFault).1.matrixFile = st2.data ∧
      (exSrc.update_from exOther .noFault).1.deletedFile = st2.flags ∧
      st2.flags.length = st2.numVectors ∧
      st2.data.length = st2.numVectors * st2.dim) :=
  ⟨by decide,
   update_from_success_consistent exSrc exOther .noFault
     (exSrc.update_from exOther .noFault).1 1 3 (by decide)⟩

/-- A fault-free mutation is well-formed when a bulk ingest's source
resolves all its live ids at the storage's dimension. -/
def StorageOp.good (d : Nat) : StorageOp → Prop
  | .del _ => True
  | .ingest o => o.good d

lemma filter_id_length_set_true (l : List Bool) :
    ∀ k, k < l.length →
      ((l.set k true).filter id).length
        = if l.getD k false then (l.filter id).length
          else (l.filter id).length + 1 := by
  induction l with
  | nil => intro k hk; cases hk
  | cons b tl ih =>
      intro k hk
      cases k with
      | zero => cases b <;> simp
      | succ j =>
          have hj : j < tl.length := by simpa using hk
          have hih := ih j hj
          cases b
          · simpa using hih
          · simp only [List.set, List.filter, List.getD_cons_succ, id] at hih ⊢
            simp only [List.length_cons, hih]
            split <;> rfl

lemma delete_some_in_range (s : MemmapVectorStorage) (st : MmapVectors) (k : Nat)
    (hmap : s.mmap_store = some st) (hk : k < st.numVectors) :
    s.delete k
      = ({ matrixFile := s.matrixFile
           deletedFile := st.flags.set k true
           mmap_store := some
             { st with
                flags := st.flags.set k true
                deletedCount := if st.flags.getD k false then st.deletedCount
                  else st.deletedCount + 1 } },
         .ok ()) := by
  simp [MemmapVectorStorage.delete, MmapVectors.deleteFlag, hmap, hk]

lemma delete_some_out_of_range (s : MemmapVectorStorage) (st : MmapVectors) (k : Nat)
    (hmap : s.mmap_store = some st) (hk : ¬ k < st.numVectors) :
    s.delete k = ({ s with mmap_store := some st }, .err .outOfRange) := by
  simp [MemmapVectorStorage.delete, MmapVectors.deleteFlag, hmap, hk]

lemma delete_preserves_good (d : Nat) (s : MemmapVectorStorage) (st : MmapVectors)
    (k : Nat)
    (hmap : s.mmap_store = some st) (hdim : st.dim = d) (hwf : st.wf)
    (hdata : s.matrixFile = st.data) (hflags : s.deletedFile = st.flags) :
    ∃ st2, (s.delete k).1.mmap_store = some st2 ∧ st2.dim = d ∧ st2.wf ∧
      (s.delete k).1.matrixFile = st2.data ∧
      (s.delete k).1.deletedFile = st2.flags ∧
      st2.numVectors = st.numVectors := by
  obtain ⟨hdl, hfl, hdc⟩ := hwf
  by_cases hk : k < st.numVectors
  · rw [delete_some_in_range s st k hmap hk]
    have hklen : k < st.flags.length := by rw [hfl]; exact hk
    refine ⟨_, rfl, hdim, ⟨hdl, by simpa using hfl, ?_⟩, hdata, rfl, rfl⟩
    show (if st.flags.getD k false then st.deletedCount else st.deletedCount + 1)
      = ((st.flags.set k true).filter id).length
    rw [filter_id_length_set_true st.flags k hklen, hdc]
  · rw [delete_some_out_of_range s st k hmap hk]
    exact ⟨st, rfl, hdim, ⟨hdl, hfl, hdc⟩, hdata, hflags, rfl⟩

lemma applyOp_preserves_good (d : Nat) (hd : 0 < d) (s : MemmapVectorStorage)
    (st : MmapVectors) (op : StorageOp)
    (hmap : s.mmap_store = some st) (hdim : st.dim = d) (hwf : st.wf)
    (hdata : s.matrixFile = st.data) (hflags : s.deletedFile = st.flags)
    (hgood : op.good d) :
    ∃ st2, (s.applyOp op).1.mmap_store = some st2 ∧ st2.dim = d ∧ st2.wf ∧
      (s.applyOp op).1.matrixFile = st2.data ∧
      (s.applyOp op).1.deletedFile = st2.flags ∧
      st2.numVectors = st.numVectors + (s.applyOp op).2 := by
  cases op with
  | del k =>
      obtain ⟨st2, h1, h2, h3, h4, h5, h6⟩ :=
        delete_preserves_good d s st k hmap hdim hwf hdata hflags
      exact ⟨st2, h1, h2, h3, h4, h5, by simpa [MemmapVectorStorage.applyOp] using h6⟩
  | ingest o =>
      obtain ⟨hdl, hfl, hdc⟩ := hwf
      have hgo : o.good st.dim := by rw [hdim]; exact hgood
      have hdp : 0 < st.dim := by rw [hdim]; exact hd
      have heq := update_from_noFault_good s st o hmap hdp hdata hflags hdl hfl hgo
      have hflat : o.liveVectors.flatten.length = o.liveVectors.length * st.dim :=
        flatten_length_const st.dim o.liveVectors (liveVectors_lengths hgo)
      refine ⟨{ dim := st.dim
                numVectors := st.numVectors + o.liveVectors.length
                deletedCount := ((st.flags
                  ++ List.replicate o.liveVectors.length false).filter id).length
                data := st.data ++ o.liveVectors.flatten
                flags := st.flags ++ List.replicate o.liveVectors.length false },
        ?_, ?_, ⟨?_, ?_, ?_⟩, ?_, ?_, ?_⟩
      · simp [MemmapVectorStorage.applyOp, heq]
      · exact hdim
      · show (st.data ++ o.liveVectors.flatten).length
          = (st.numVectors + o.liveVectors.length) * st.dim
        rw [List.length_append, hdl, hflat]
        ring
      · show (st.flags ++ List.replicate o.liveVectors.length false).length
          = st.numVectors + o.liveVectors.length
        rw [List.length_append, hfl, List.length_replicate]
      · rfl
      · simp [MemmapVectorStorage.applyOp, heq]
      · simp [MemmapVectorStorage.applyOp, heq]
      · simp [MemmapVectorStorage.applyOp, heq]

lemma runOps_good (d : Nat) (hd : 0 < d) :
    ∀ (ops : List StorageOp) (s : MemmapVectorStorage) (st : MmapVectors),
      s.mmap_store = some st → st.dim = d → st.wf →
      s.matrixFile = st.data → s.deletedFile = st.flags →
      (∀ op ∈ ops, op.good d) →
      ∃ st2, (s.runOps ops).1.mmap_store = some st2 ∧ st2.dim = d ∧ st2.wf ∧
        (s.runOps ops).1.matrixFile = st2.data ∧
        (s.runOps ops).1.deletedFile = st2.flags ∧
        st2.numVectors = st.numVectors + (s.runOps ops).2 := by
  intro ops
  induction ops with
  | nil =>
      intro s st hmap hdim hwf hdata hflags _
      exact ⟨st, hmap, hdim, hwf, hdata, hflags, rfl⟩
  | cons op rest ih =>
      intro s st hmap hdim hwf hdata hflags hops
      obtain ⟨st1, h1, h2, h3, h4, h5, h6⟩ :=
        applyOp_preserves_good d hd s st op hmap hdim hwf hdata hflags
          (hops op (List.mem_cons_self op rest))
      obtain ⟨st2, g1, g2, g3, g4, g5, g6⟩ :=
        ih (s.applyOp op).1 st1 h1 h2 h3 h4 h5
          (fun op2 hop2 => hops op2 (List.mem_cons_of_mem op hop2))
      refine ⟨st2, ?_, g2, g3, ?_, ?_, ?_⟩ <;>
        simp only [MemmapVectorStorage.runOps]
      · exact g1
      · exact g4
      · exact g5
      · rw [g6, h6]
        ring

/-- C8: after any fault-free sequence of mutations (deletes and bulk
ingests) starting from a freshly created storage, `deleted_count()` plus
`vector_count()` equals the total number of slots appended across the run
— in particular `vector_count` counts exactly the live, non-deleted
vectors. -/
theorem counts_partition_total_appended (d : Nat) (hd : 0 < d)
    (ops : List StorageOp) (hops : ∀ op ∈ ops, StorageOp.good d op) :
    ∃ dc vc,
      ((MemmapVectorStorage.emptyStorage d).runOps ops).1.deleted_count = .ok dc ∧
      ((MemmapVectorStorage.emptyStorage d).runOps ops).1.vector_count = .ok vc ∧
      dc + vc = ((MemmapVectorStorage.emptyStorage d).runOps ops).2 := by
  obtain ⟨st2, h1, -, ⟨-, hfl, hdc⟩, -, -, h6⟩ :=
    runOps_good d hd ops (MemmapVectorStorage.emptyStorage d)
      { dim := d, numVectors := 0, deletedCount := 0, data := [], flags := [] }
      rfl rfl ⟨by simp, rfl, rfl⟩ rfl rfl hops
  have hle : st2.deletedCount ≤ st2.numVectors := by
    rw [hdc, ← hfl]
    exact List.length_filter_le _ _
  refine ⟨st2.deletedCount, st2.numVectors - st2.deletedCount, ?_, ?_, ?_⟩
  · simp [MemmapVectorStorage.deleted_count, h1]
  · simp [MemmapVectorStorage.vector_count, h1]
  · rw [Nat.add_sub_cancel' hle]
    simpa using h6

/-- C8 witness: the theorem applied at dimension 1 to the run "ingest the
two vectors of `exOther`, then delete offset 0": two slots were appended
in total, and afterwards `deleted_count + vector_count = 2`. -/
theorem counts_partition_witness :
    (0 < 1 ∧ ∀ op ∈ [StorageOp.ingest exOther, StorageOp.del 0],
        StorageOp.good 1 op) ∧
    (∃ dc vc,
      ((MemmapVectorStorage.emptyStorage 1).runOps
          [StorageOp.ingest exOther, StorageOp.del 0]).1.deleted_count = .ok dc ∧
      ((MemmapVectorStorage.emptyStorage 1).runOps
          [StorageOp.ingest exOther, StorageOp.del 0]).1.vector_count = .ok vc ∧
      dc + vc = ((MemmapVectorStorage.emptyStorage 1).runOps
          [StorageOp.ingest exOther, StorageOp.del 0]).2) :=
  ⟨⟨by decide,
    by
      intro op hop
      rcases List.mem_cons.mp hop with rfl | hop
      · exact exOther_good
      · rcases List.mem_cons.mp hop with rfl | hop
        · exact trivial
        · cases hop⟩,
   counts_partition_total_appended 1 (by decide)
     [StorageOp.ingest exOther, StorageOp.del 0]
     (by
      intro op hop
      rcases List.mem_cons.mp hop with rfl | hop
      · exact exOther_good
      · rcases List.mem_cons.mp hop with rfl | hop
        · exact trivial
        · cases hop)⟩

lemma getD_set_self (l : List Bool) :
    ∀ k, k < l.length → (l.set k true).getD k false = true := by
  induction l with
  | nil => intro k hk; cases hk
  | cons b tl ih =>
      intro k hk
      cases k with
      | zero => rfl
      | succ j => exact ih j (by simpa using hk)

/-- C9: for a valid offset `k`, `delete k` succeeds and changes only `k`'s
deletion flag: the vectors file and mapped data are untouched, afterwards
`k` is absent from `iter_ids` and from every `score_all` / `score_points`
result set, while `get_vector j` returns exactly what it did before the
call for every offset `j` — including `j = k` (deletion does not erase
data). -/
theorem delete_frame_effect (s : MemmapVectorStorage) (st : MmapVectors) (k : Nat)
    (hmap : s.mmap_store = some st) (hwf : st.wf) (hk : k < st.numVectors) :
    ∃ s2, s.delete k = (s2, .ok ()) ∧
      s2.matrixFile = s.matrixFile ∧
      (∃ st2, s2.mmap_store = some st2 ∧ st2.data = st.data ∧
        st2.dim = st.dim ∧ st2.numVectors = st.numVectors ∧
        st2.flags = st.flags.set k true) ∧
      (∀ l, s2.iter_ids = .ok l → k ∉ l) ∧
      (∀ j, s2.get_vector j = s.get_vector j) ∧
      (∀ q top dist r, s2.score_all q top dist = .ok r → ∀ x ∈ r, x.idx ≠ k) ∧
      (∀ q pts top dist r, s2.score_points q pts top dist = .ok r →
        ∀ x ∈ r, x.idx ≠ k) := by
  obtain ⟨hdl, hfl, hdc⟩ := hwf
  have hklen : k < st.flags.length := by rw [hfl]; exact hk
  have hred := delete_some_in_range s st k hmap hk
  set st2 : MmapVectors :=
    { st with
        flags := st.flags.set k true
        deletedCount := if st.flags.getD k false then st.deletedCount
          else st.deletedCount + 1 } with hst2
  set s2 : MemmapVectorStorage :=
    { matrixFile := s.matrixFile
      deletedFile := st.flags.set k true
      mmap_store := some st2 } with hs2
  have hdelk : st2.deleted k = some true := by
    show (if k < st2.numVectors then some (st2.flags.getD k false) else none) = some true
    have h1 : k < st2.numVectors := hk
    rw [if_pos h1]
    show some ((st.flags.set k true).getD k false) = some true
    rw [getD_set_self st.flags k hklen]
  refine ⟨s2, hred, rfl, ⟨st2, rfl, rfl, rfl, rfl, rfl⟩, ?_, ?_, ?_, ?_⟩
  · intro l hl
    have hll : l = (List.range st2.numVectors).filter
        (fun id => !((st2.deleted id).getD false)) := by
      have : s2.iter_ids = .ok ((List.range st2.numVectors).filter
          (fun id => !((st2.deleted id).getD false))) := rfl
      rw [this] at hl
      cases hl
      rfl
    rw [hll]
    intro hmem
    have := (List.mem_filter.mp hmem).2
    rw [hdelk] at this
    simp at this
  · intro j
    show st2.get_vector j = s.get_vector j
    rw [MemmapVectorStorage.get_vector, hmap]
    rfl
  · intro q top dist r hr
    have hrr : r = peek_top_scores
        (((List.range st2.numVectors).filter
            (fun id => !((st2.deleted id).getD false))).map
          (fun p =>
            { idx := p
              score := (mertic_object dist).similarity
                ((mertic_object dist).preprocess q) ((st2.raw_vector p).getD []) }))
        top := by
      have : s2.score_all q top dist = .ok (peek_top_scores
        (((List.range st2.numVectors).filter
            (fun id => !((st2.deleted id).getD false))).map
          (fun p =>
            { idx := p
              score := (mertic_object dist).similarity
                ((mertic_object dist).preprocess q) ((st2.raw_vector p).getD []) }))
        top) := rfl
      rw [this] at hr
      cases hr
      rfl
    intro x hx hxk
    rw [hrr] at hx
    have hmem := mem_peek_top_scores hx
    rcases List.mem_map.mp hmem with ⟨p, hp, hpx⟩
    have hpk : p = k := by rw [← hxk, ← hpx]
    subst hpk
    have := (List.mem_filter.mp hp).2
    rw [hdelk] at this
    simp at this
  · intro q pts top dist r hr
    have hrr : r = peek_top_scores
        ((pts.filter (fun p => !((st2.deleted p).getD true))).map
          (fun p =>
            { idx := p
              score := (mertic_object dist).similarity
                ((mertic_object dist).preprocess q) ((st2.raw_vector p).getD []) }))
        top := by
      have : s2.score_points q pts top dist = .ok (peek_top_scores
        ((pts.filter (fun p => !((st2.deleted p).getD true))).map
          (fun p =>
            { idx := p
              score := (mertic_object dist).similarity
                ((mertic_object dist).preprocess q) ((st2.raw_vector p).getD []) }))
        top) := rfl
      rw [this] at hr
      cases hr
      rfl
    intro x hx hxk
    rw [hrr] at hx
    have hmem := mem_peek_top_scores hx
    rcases List.mem_map.mp hmem with ⟨p, hp, hpx⟩
    have hpk : p = k := by rw [← hxk, ← hpx]
    subst hpk
    have := (List.mem_filter.mp hp).2
    rw [hdelk] at this
    simp at this

/-- C9 witness: the theorem applied to the concrete one-vector storage
`exSrc` at the valid offset `0`. -/
theorem delete_frame_effect_witness :
    (exSrc.mmap_store = some exSrcStore ∧ exSrcStore.wf ∧
      0 < exSrcStore.numVectors) ∧
    (∃ s2, exSrc.delete 0 = (s2, .ok ()) ∧
      s2.matrixFile = exSrc.matrixFile ∧
      (∃ st2, s2.mmap_store = some st2 ∧ st2.data = exSrcStore.data ∧
        st2.dim = exSrcStore.dim ∧ st2.numVectors = exSrcStore.numVectors ∧
        st2.flags = exSrcStore.flags.set 0 true) ∧
      (∀ l, s2.iter_ids = .ok l → 0 ∉ l) ∧
      (∀ j, s2.get_vector j = exSrc.get_vector j) ∧
      (∀ q top dist r, s2.score_all q top dist = .ok r → ∀ x ∈ r, x.idx ≠ 0) ∧
      (∀ q pts top dist r, s2.score_points q pts top dist = .ok r →
        ∀ x ∈ r, x.idx ≠ 0)) :=
  ⟨⟨rfl, ⟨by decide, by decide, by decide⟩, by decide⟩,
   delete_frame_effect exSrc exSrcStore 0 rfl ⟨by decide, by decide, by decide⟩
     (by decide)⟩

/-- The state `update_from` leaves behind when its very first file open
fails on `exSrc`: files untouched, map dropped. -/
def exNoMap : MemmapVectorStorage :=
  { matrixFile := [5], deletedFile := [false], mmap_store := none }

/-- C10: whenever `update_from` returns a typed error (every error exit
lies after `self.mmap_store = None`), the storage is left with no backing
map, and from then on `get_vector` returns `None` for every offset and
`flush` returns `Ok(())` as if nothing were stored, while `vector_dim`,
`vector_count`, `deleted_count`, `delete`, `iter_ids` and `raw_scorer`
abort (unwrap panic) instead of returning typed errors. -/
theorem update_from_error_leaves_no_map (s : MemmapVectorStorage) (o : OtherStorage)
    (fault : UfFault) (s2 : MemmapVectorStorage) (e : StorageError)
    (h : s.update_from o fault = (s2, .err e)) :
    s2.mmap_store = none ∧
    (∀ k, s2.get_vector k = none) ∧
    s2.flush = .ok () ∧
    s2.vector_dim = .panic "called `Option::unwrap()` on a `None` value" ∧
    s2.vector_count = .panic "called `Option::unwrap()` on a `None` value" ∧
    s2.deleted_count = .panic "called `Option::unwrap()` on a `None` value" ∧
    (∀ k, (s2.delete k).2 = .panic "called `Option::unwrap()` on a `None` value") ∧
    s2.iter_ids = .panic "called `Option::unwrap()` on a `None` value" ∧
    (∀ q dist, s2.raw_scorer q dist
      = .panic "called `Option::unwrap()` on a `None` value") := by
  have hnone : s2.mmap_store = none := by
    unfold MemmapVectorStorage.update_from at h
    repeat' split at h
    all_goals try contradiction
    all_goals try simp at h
    all_goals repeat' split at h
    all_goals try simp at h
    all_goals obtain ⟨h1, -⟩ := h
    all_goals subst h1
    all_goals rfl
  refine ⟨hnone, ?_, ?_, ?_, ?_, ?_, ?_, ?_, ?_⟩
  · intro k
    simp [MemmapVectorStorage.get_vector, hnone]
  · simp [MemmapVectorStorage.flush, hnone]
  · simp [MemmapVectorStorage.vector_dim, hnone]
  · simp [MemmapVectorStorage.vector_count, hnone]
  · simp [MemmapVectorStorage.deleted_count, hnone]
  · intro k
    simp [MemmapVectorStorage.delete, hnone]
  · simp [MemmapVectorStorage.iter_ids, hnone]
  · intro q dist
    simp [MemmapVectorStorage.raw_scorer, hnone]

/-- C10 witness: the theorem applied to a concrete failing run — the
vectors-file open fails while ingesting `exOther` into `exSrc`. -/
theorem update_from_error_witness :
    exSrc.update_from exOther .vecOpen = (exNoMap, .err .ioFailure) ∧
    (exNoMap.mmap_store = none ∧
    (∀ k, exNoMap.get_vector k = none) ∧
    exNoMap.flush = .ok () ∧
    exNoMap.vector_dim = .panic "called `Option::unwrap()` on a `None` value" ∧
    exNoMap.vector_count = .panic "called `Option::unwrap()` on a `None` value" ∧
    exNoMap.deleted_count = .panic "called `Option::unwrap()` on a `None` value" ∧
    (∀ k, (exNoMap.delete k).2
      = .panic "called `Option::unwrap()` on a `None` value") ∧
    exNoMap.iter_ids = .panic "called `Option::unwrap()` on a `None` value" ∧
    (∀ q dist, exNoMap.raw_scorer q dist
      = .panic "called `Option::unwrap()` on a `None` value")) :=
  ⟨by decide,
   update_from_error_leaves_no_map exSrc exOther .vecOpen exNoMap .ioFailure
     (by decide)⟩
